import Mathlib

/-!
Shallow embedding of the attitude-estimation filter of
src/omega_ff_e2/src/ahrs.rs (a quaternion complementary filter with
accelerometer-disturbance hysteresis), together with the vector and
quaternion primitives of the external quaternion crate it calls, which
are modelled from the specification (section 4.1).  Machine
floating-point numbers are idealised: the purely algebraic layer is
generic over a linearly ordered field, the parts that need square roots
live over the real numbers.
-/

namespace OmegaFF

/-- Embedding of the Rust type Vector3 of f64, an array of three components. -/
structure Vector3 (α : Type) where
  x : α
  y : α
  z : α
  deriving DecidableEq

/-- Embedding of the Rust type Quaternion of f64: a pair of a scalar part
and a vector part (source tuple fields 0 and 1). -/
structure Quaternion (α : Type) where
  scalar : α
  vec : Vector3 α
  deriving DecidableEq

variable {α : Type} [LinearOrderedField α]

/-- Modelled from the spec: componentwise vector addition (crate add_vec). -/
def add_vec (a b : Vector3 α) : Vector3 α :=
  ⟨a.x + b.x, a.y + b.y, a.z + b.z⟩

/-- Modelled from the spec: componentwise vector subtraction (crate sub_vec). -/
def sub_vec (a b : Vector3 α) : Vector3 α :=
  ⟨a.x - b.x, a.y - b.y, a.z - b.z⟩

/-- Modelled from the spec: scalar times vector (crate scale_vec). -/
def scale_vec (s : α) (a : Vector3 α) : Vector3 α :=
  ⟨s * a.x, s * a.y, s * a.z⟩

/-- Modelled from the spec: elementwise product (crate hadamard_vec). -/
def hadamard_vec (a b : Vector3 α) : Vector3 α :=
  ⟨a.x * b.x, a.y * b.y, a.z * b.z⟩

/-- Modelled from the spec: vector negation (crate negate_vec). -/
def negate_vec (a : Vector3 α) : Vector3 α :=
  ⟨-a.x, -a.y, -a.z⟩

/-- Modelled from the spec: Euclidean dot product (crate dot_vec). -/
def dot_vec (a b : Vector3 α) : α :=
  a.x * b.x + a.y * b.y + a.z * b.z

/-- Modelled from the spec: cross product (crate cross_vec). -/
def cross_vec (a b : Vector3 α) : Vector3 α :=
  ⟨a.y * b.z - a.z * b.y, a.z * b.x - a.x * b.z, a.x * b.y - a.y * b.x⟩

/-- Modelled from the spec: scaled addition s * a + b on vectors
(crate scale_add_vec). -/
def scale_add_vec (s : α) (a b : Vector3 α) : Vector3 α :=
  ⟨s * a.x + b.x, s * a.y + b.y, s * a.z + b.z⟩

/-- Squared Euclidean norm of a vector (helper for the norm). -/
def norm_sq_vec (a : Vector3 α) : α :=
  a.x * a.x + a.y * a.y + a.z * a.z

/-- Modelled from the spec: Euclidean norm of a vector (crate norm_vec). -/
noncomputable def norm_vec (a : Vector3 ℝ) : ℝ :=
  Real.sqrt (norm_sq_vec a)

/-- Modelled from the spec: quaternion dot product, the sum of the four
componentwise products (crate dot on quaternions). -/
def dot (p q : Quaternion α) : α :=
  p.scalar * q.scalar + dot_vec p.vec q.vec

/-- Modelled from the spec: the standard Hamilton quaternion product
(crate mul). -/
def mul (p q : Quaternion α) : Quaternion α :=
  ⟨p.scalar * q.scalar - dot_vec p.vec q.vec,
   add_vec (add_vec (scale_vec p.scalar q.vec) (scale_vec q.scalar p.vec))
     (cross_vec p.vec q.vec)⟩

/-- Modelled from the spec: quaternion conjugate. -/
def conj (q : Quaternion α) : Quaternion α :=
  ⟨q.scalar, negate_vec q.vec⟩

/-- Modelled from the spec: scalar times quaternion (crate scale). -/
def scale (s : α) (q : Quaternion α) : Quaternion α :=
  ⟨s * q.scalar, scale_vec s q.vec⟩

/-- Modelled from the spec: quaternion addition (crate add). -/
def add (p q : Quaternion α) : Quaternion α :=
  ⟨p.scalar + q.scalar, add_vec p.vec q.vec⟩

/-- Modelled from the spec: scaled addition s * a + b on quaternions
(crate scale_add). -/
def scale_add (s : α) (a b : Quaternion α) : Quaternion α :=
  ⟨s * a.scalar + b.scalar, add_vec (scale_vec s a.vec) b.vec⟩

/-- Squared norm of a quaternion (helper for the norm). -/
def norm_sq (q : Quaternion α) : α :=
  q.scalar * q.scalar + norm_sq_vec q.vec

/-- Modelled from the spec: Euclidean norm of a quaternion. -/
noncomputable def norm (q : Quaternion ℝ) : ℝ :=
  Real.sqrt (norm_sq q)

/-- Modelled from the spec: normalize(q) returns q divided by its norm
(crate normalize). -/
noncomputable def normalize (q : Quaternion ℝ) : Quaternion ℝ :=
  scale (1 / norm q) q

/-- Modelled from the spec: frame_rotation(q, v) rotates a reference-frame
vector into the body frame by the sandwich product with q and its
conjugate; the vector part of conj q * (0, v) * q. -/
def frame_rotation (q : Quaternion α) (v : Vector3 α) : Vector3 α :=
  (mul (mul (conj q) ⟨0, v⟩) q).vec

/-- Modelled from the spec: vector_rotation(q, v) is the inverse rotation,
body frame to reference frame; the vector part of q * (0, v) * conj q. -/
def vector_rotation (q : Quaternion α) (v : Vector3 α) : Vector3 α :=
  (mul (mul q ⟨0, v⟩) (conj q)).vec

/-- Modelled from the spec: an arbitrary vector orthogonal to the argument,
used as the fallback rotation axis for the antiparallel case of
rotate_a_to_b. -/
noncomputable def pick_orthogonal (a : Vector3 ℝ) : Vector3 ℝ :=
  if a.x = 0 ∧ a.y = 0 then ⟨1, 0, 0⟩ else ⟨-a.y, a.x, 0⟩

/-- Modelled from the spec: unit vector in the direction of the argument. -/
noncomputable def normalize_vec (a : Vector3 ℝ) : Vector3 ℝ :=
  scale_vec (1 / norm_vec a) a

/-- Modelled from the spec: rotate_a_to_b(a, b) is the shortest-arc unit
quaternion rotating vector a onto vector b; the parallel case yields the
identity rotation, the antiparallel case picks an arbitrary axis
orthogonal to a (crate rotate_a_to_b). -/
noncomputable def rotate_a_to_b (a b : Vector3 ℝ) : Quaternion ℝ :=
  let w := Real.sqrt (norm_sq_vec a * norm_sq_vec b) + dot_vec a b
  if w = 0 then ⟨0, normalize_vec (pick_orthogonal a)⟩
  else normalize ⟨w, cross_vec a b⟩

/-- Standard gravity, src/omega_ff_e2/src/ahrs.rs line 8. -/
noncomputable def STANDARD_GRAVITY : ℝ := 9.80665

/-- Reference-frame accelerometer reading, ahrs.rs line 11. -/
noncomputable def ACC_R : Vector3 ℝ := ⟨0, 0, STANDARD_GRAVITY⟩

/-- Reference-frame magnetometer reading, ahrs.rs line 14. -/
def MAG_R : Vector3 ℝ := ⟨0, 1, 0⟩

/-- Hysteresis width of the disturbance detection, ahrs.rs line 17. -/
def HYSTERESIS : α := 0.2

/-- Global sample period DT of src/omega_ff_e1/src/main.rs line 14,
referenced by ahrs.rs through super. -/
def DT : α := 0.02

/-- Embedding of the Rust struct AttitudeFilter, ahrs.rs lines 19 to 29. -/
structure AttitudeFilter (α : Type) where
  q : Quaternion α
  gyr_correct : Vector3 α
  coef_gyr_c : α
  coef_integ : α
  gyr_integ : Vector3 α
  thr_weak : α
  thr_strong : α
  flag_acc_weak : Bool
  flag_acc_strong : Bool
  deriving DecidableEq

/-- Embedding of AttitudeFilter::new, ahrs.rs lines 36 to 48. -/
def new (alpha beta thr_weak thr_strong : α) : AttitudeFilter α :=
  { q := ⟨1, ⟨0, 0, 0⟩⟩
    gyr_correct := ⟨0, 0, 0⟩
    coef_gyr_c := 2 / alpha
    coef_integ := beta
    gyr_integ := ⟨0, 0, 0⟩
    thr_weak := thr_weak
    thr_strong := thr_strong
    flag_acc_weak := false
    flag_acc_strong := false }

/-- Embedding of AttitudeFilter::predict, ahrs.rs lines 53 to 64. -/
noncomputable def predict (f : AttitudeFilter ℝ) (gyr : Vector3 ℝ) :
    AttitudeFilter ℝ :=
  let omega := add_vec gyr f.gyr_correct
  let tmp0 := scale_vec f.q.scalar omega
  let d := dot_vec f.q.vec omega
  let c := cross_vec f.q.vec omega
  let tmp1 : Quaternion ℝ := ⟨-d, add_vec tmp0 c⟩
  { f with q := normalize (scale_add (0.5 * DT) tmp1 f.q) }

/-- Embedding of the accelerometer-disturbance classification of
AttitudeFilter::correct, ahrs.rs lines 71 to 98: given the thresholds,
the full gain, the two hysteresis flags, the normalized error e, the
measured acceleration and the predicted acceleration, it returns the
acceleration used for the rest of the cycle, the gain coef, and the new
values of flag_acc_weak and flag_acc_strong. -/
def accDisturbance (thr_weak thr_strong coef_gyr_c : α)
    (flag_acc_weak flag_acc_strong : Bool) (e : α) (acc acc_q : Vector3 α) :
    Vector3 α × α × Bool × Bool :=
  if e > thr_strong then
    (acc_q, coef_gyr_c, flag_acc_weak, true)
  else if e > thr_weak then
    if flag_acc_strong = true ∧ e > thr_strong - thr_strong * HYSTERESIS then
      (acc_q, coef_gyr_c, flag_acc_weak, flag_acc_strong)
    else
      (acc, coef_gyr_c * 0.5, true, false)
  else
    if flag_acc_weak = true ∧ e > thr_weak - thr_weak * HYSTERESIS then
      (acc, coef_gyr_c * 0.5, flag_acc_weak, flag_acc_strong)
    else
      (acc, coef_gyr_c, false, false)

/-- Embedding of get_q_gm, ahrs.rs lines 123 to 128. -/
noncomputable def get_q_gm (acc mag : Vector3 ℝ) : Quaternion ℝ :=
  let q_g := rotate_a_to_b acc ACC_R
  let mag_b2r := hadamard_vec (vector_rotation q_g mag) ⟨1, 1, 0⟩
  let q_e := rotate_a_to_b mag_b2r MAG_R
  mul q_e q_g

/-- Embedding of AttitudeFilter::correct, ahrs.rs lines 70 to 118.  The
branch of lines 76 to 98 is factored through accDisturbance; the Rust
test is_sign_negative on the dot product is idealised as the comparison
with zero. -/
noncomputable def correct (f : AttitudeFilter ℝ) (acc mag : Vector3 ℝ) :
    AttitudeFilter ℝ :=
  let acc_q := frame_rotation f.q ACC_R
  let e := norm_vec (sub_vec acc acc_q) / STANDARD_GRAVITY
  let r := accDisturbance f.thr_weak f.thr_strong f.coef_gyr_c
    f.flag_acc_weak f.flag_acc_strong e acc acc_q
  let q_gm := get_q_gm r.1 mag
  let term1 := scale_vec f.q.scalar q_gm.vec
  let term2 := scale_vec q_gm.scalar f.q.vec
  let term3 := cross_vec q_gm.vec f.q.vec
  let gc0 := scale_vec r.2.1 (add_vec (sub_vec term1 term2) term3)
  let gc1 := if dot f.q q_gm < 0 then negate_vec gc0 else gc0
  let integ1 := scale_add_vec DT gc1 f.gyr_integ
  let gc2 := scale_add_vec f.coef_integ integ1 gc1
  { f with gyr_correct := gc2, gyr_integ := integ1,
           flag_acc_weak := r.2.2.1, flag_acc_strong := r.2.2.2 }

/-- Tri-state disturbance machine of the spec (section 4.2), used to compare
the boolean-flag implementation against the specified state machine. -/
inductive DisturbanceState : Type where
  | NONE : DisturbanceState
  | WEAK : DisturbanceState
  | STRONG : DisturbanceState
  deriving DecidableEq

/-- Modelled from the spec: single step of the tri-state classification of
section 4.2, with states NONE, WEAK and STRONG and re-arm point at
threshold times 0.8; returns the accelerometer value used, the gain and
the successor state. -/
def triStep (thr_weak thr_strong coef_gyr_c : α)
    (st : DisturbanceState) (e : α) (acc acc_q : Vector3 α) :
    Vector3 α × α × DisturbanceState :=
  if e > thr_strong then
    (acc_q, coef_gyr_c, .STRONG)
  else if e > thr_weak then
    if st = .STRONG ∧ e > thr_strong * 0.8 then
      (acc_q, coef_gyr_c, .STRONG)
    else
      (acc, coef_gyr_c * 0.5, .WEAK)
  else
    if st = .WEAK ∧ e > thr_weak * 0.8 then
      (acc, coef_gyr_c * 0.5, .WEAK)
    else
      (acc, coef_gyr_c, .NONE)

/-- Correspondence from the boolean flag pair of the source to the
tri-state machine: the strong flag dominates, then the weak flag. -/
def boolToTri (fw fs : Bool) : DisturbanceState :=
  if fs then .STRONG else if fw then .WEAK else .NONE

/-- Per-cycle decisions (accelerometer value used and gain applied) of the
boolean-flag classifier of the source, run over a list of error values. -/
def boolTrace (w s c : α) (fw fs : Bool)
    (acc acc_q : Vector3 α) : List α → List (Vector3 α × α)
  | [] => []
  | e :: es =>
    let r := accDisturbance w s c fw fs e acc acc_q
    (r.1, r.2.1) :: boolTrace w s c r.2.2.1 r.2.2.2 acc acc_q es

/-- Per-cycle decisions of the tri-state machine of the spec, run over a
list of error values. -/
def triTrace (w s c : α) (st : DisturbanceState)
    (acc acc_q : Vector3 α) : List α → List (Vector3 α × α)
  | [] => []
  | e :: es =>
    let r := triStep w s c st e acc acc_q
    (r.1, r.2.1) :: triTrace w s c r.2.2 acc acc_q es

/-- The re-arm point written in the source as threshold minus threshold
times HYSTERESIS equals threshold times 0.8. -/
lemma rearm_point (t : α) : t - t * HYSTERESIS = t * 0.8 := by
  rw [HYSTERESIS]; ring

/-- C1: for every filter state and inputs, one call to correct classifies
the normalized error e three ways: if e is above the strong threshold the
accelerometer input for the rest of the cycle is replaced by the
predicted value, the strong flag is set and the gain stays the full
coef_gyr_c; otherwise, if e is above the weak threshold, the previous
state was STRONG and e is above the strong threshold times 0.8, the
accelerometer is still replaced by the predicted value; otherwise, if e
is above the weak threshold, the state becomes WEAK (weak flag set,
strong flag cleared), the gain is halved and the measured accelerometer
value is used. -/
theorem disturbance_three_way_classification
    (w s c : α) (fw fs : Bool) (e : α) (acc acc_q : Vector3 α) :
    (e > s → accDisturbance w s c fw fs e acc acc_q = (acc_q, c, fw, true)) ∧
    (e ≤ s → e > w → fs = true → e > s * 0.8 →
      (accDisturbance w s c fw fs e acc acc_q).1 = acc_q) ∧
    (e ≤ s → e > w → ¬(fs = true ∧ e > s * 0.8) →
      accDisturbance w s c fw fs e acc acc_q = (acc, c * 0.5, true, false)) := by
  unfold accDisturbance
  rw [rearm_point, rearm_point]
  refine ⟨fun h1 => ?_, fun h1 h2 h3 h4 => ?_, fun h1 h2 h3 => ?_⟩
  · rw [if_pos h1]
  · rw [if_neg (not_lt.2 h1), if_pos h2, if_pos ⟨h3, h4⟩]
  · rw [if_neg (not_lt.2 h1), if_pos h2, if_neg h3]

/-- Witness for C1: the three branches evaluated at concrete inputs. -/
theorem disturbance_three_way_classification_witness :
    ((2:ℚ) > 1 ∧
      accDisturbance (0:ℚ) 1 3 false false 2 ⟨1,2,3⟩ ⟨4,5,6⟩ =
        (⟨4,5,6⟩, 3, false, true)) ∧
    ((1:ℚ) ≤ 1 ∧ (1:ℚ) > 0 ∧ (1:ℚ) > 1 * 0.8 ∧
      (accDisturbance (0:ℚ) 1 3 false true 1 ⟨1,2,3⟩ ⟨4,5,6⟩).1 = ⟨4,5,6⟩) ∧
    ((1:ℚ) ≤ 1 ∧ (1:ℚ) > 0 ∧ ¬(false = true ∧ (1:ℚ) > 1 * 0.8) ∧
      accDisturbance (0:ℚ) 1 3 false false 1 ⟨1,2,3⟩ ⟨4,5,6⟩ =
        (⟨1,2,3⟩, 3 * 0.5, true, false)) :=
  ⟨⟨by decide,
    (disturbance_three_way_classification 0 1 3 false false 2 ⟨1,2,3⟩ ⟨4,5,6⟩).1
      (by decide)⟩,
   ⟨by decide, by decide, by norm_num,
    (disturbance_three_way_classification 0 1 3 false true 1 ⟨1,2,3⟩ ⟨4,5,6⟩).2.1
      (by decide) (by decide) rfl (by norm_num)⟩,
   ⟨by decide, by decide, by simp,
    (disturbance_three_way_classification 0 1 3 false false 1 ⟨1,2,3⟩ ⟨4,5,6⟩).2.2
      (by decide) (by decide) (by simp)⟩⟩

/-- C2: when correct computes e at most the weak threshold, if the previous
state was WEAK (weak flag set, strong flag clear) and e is above the weak
threshold times 0.8, the gain stays halved and the state effectively
remains WEAK; otherwise both flags are cleared (state NONE) and the full
gain is used.  Moreover, with weak threshold 0.04 and strong threshold
0.08, a cycle with e equal to 0.15 from the fresh state sets STRONG, a
cycle with e equal to 0.07 keeps STRONG with the accelerometer
suppressed, and a cycle with e equal to 0.03 moves the state to NONE. -/
theorem weak_hysteresis_release :
    (∀ (β : Type) (_ : LinearOrderedField β) (w s c : β) (fw fs : Bool)
      (e : β) (acc acc_q : Vector3 β), w < s →
      (e ≤ w → fw = true → fs = false → e > w * 0.8 →
        accDisturbance w s c fw fs e acc acc_q = (acc, c * 0.5, true, false)) ∧
      (e ≤ w → ¬(fw = true ∧ e > w * 0.8) →
        accDisturbance w s c fw fs e acc acc_q = (acc, c, false, false))) ∧
    (accDisturbance (0.04:ℚ) 0.08 2 false false 0.15 ⟨1,2,3⟩ ⟨4,5,6⟩ =
      (⟨4,5,6⟩, 2, false, true)) ∧
    (accDisturbance (0.04:ℚ) 0.08 2 false true 0.07 ⟨1,2,3⟩ ⟨4,5,6⟩ =
      (⟨4,5,6⟩, 2, false, true)) ∧
    (accDisturbance (0.04:ℚ) 0.08 2 false true 0.03 ⟨1,2,3⟩ ⟨4,5,6⟩ =
      (⟨1,2,3⟩, 2, false, false)) := by
  refine ⟨?_, ?_, ?_, ?_⟩
  · intro β instβ w s c fw fs e acc acc_q hws
    unfold accDisturbance
    rw [rearm_point, rearm_point]
    refine ⟨fun h1 h2 h3 h4 => ?_, fun h1 h2 => ?_⟩
    · rw [if_neg (not_lt.2 (h1.trans hws.le)), if_neg (not_lt.2 h1),
        if_pos ⟨h2, h4⟩, h2, h3]
    · rw [if_neg (not_lt.2 (h1.trans hws.le)), if_neg (not_lt.2 h1), if_neg h2]
  · norm_num [accDisturbance, HYSTERESIS]
  · norm_num [accDisturbance, HYSTERESIS]
  · norm_num [accDisturbance, HYSTERESIS]

/-- Witness for C2: both release branches evaluated at concrete inputs. -/
theorem weak_hysteresis_release_witness :
    ((1:ℚ) < 2 ∧ (1:ℚ) ≤ 1 ∧ (true = true) ∧ (false = false) ∧
      (1:ℚ) > 1 * 0.8 ∧
      accDisturbance (1:ℚ) 2 6 true false 1 ⟨1,2,3⟩ ⟨4,5,6⟩ =
        (⟨1,2,3⟩, 6 * 0.5, true, false)) ∧
    ((1:ℚ) < 2 ∧ (0:ℚ) ≤ 1 ∧ ¬(false = true ∧ (0:ℚ) > 1 * 0.8) ∧
      accDisturbance (1:ℚ) 2 6 false false 0 ⟨1,2,3⟩ ⟨4,5,6⟩ =
        (⟨1,2,3⟩, 6, false, false)) :=
  ⟨⟨by decide, by decide, rfl, rfl, by norm_num,
    (weak_hysteresis_release.1 ℚ inferInstance 1 2 6 true false 1 ⟨1,2,3⟩ ⟨4,5,6⟩
      (by decide)).1 (by decide) rfl rfl (by norm_num)⟩,
   ⟨by decide, by decide, by simp,
    (weak_hysteresis_release.1 ℚ inferInstance 1 2 6 false false 0 ⟨1,2,3⟩ ⟨4,5,6⟩
      (by decide)).2 (by decide) (by simp)⟩⟩

/-- Counterexample to C3: from the freshly constructed filter (both flags
clear, tri-state NONE), with weak threshold 0.04 and strong threshold
0.08, the error sequence 0.06, 0.15, 0.035 makes the boolean
implementation and the tri-state machine of the spec take different
per-cycle decisions: at the third cycle the boolean machine keeps the
halved gain (its weak flag is still set from the first cycle, and both
flags are set after the second) while the tri-state machine, being in
STRONG and seeing e at most the weak threshold, restores the full gain. -/
theorem bool_tristate_decision_mismatch :
    boolTrace (0.04:ℚ) 0.08 2 false false ⟨1,2,3⟩ ⟨4,5,6⟩ [0.06, 0.15, 0.035] ≠
    triTrace (0.04:ℚ) 0.08 2 .NONE ⟨1,2,3⟩ ⟨4,5,6⟩ [0.06, 0.15, 0.035] := by
  norm_num [boolTrace, triTrace, accDisturbance, triStep, HYSTERESIS]
  intro _
  rw [if_neg (by simp)]
  norm_num

/-- C3 as amended: relating boolean flag pairs to tri-state values by
boolToTri (strong flag to STRONG, else weak flag to WEAK, else NONE),
every single classification step of the boolean implementation makes the
same per-cycle decisions (accelerometer value used and gain applied) as
the tri-state machine of the spec, and the successor states stay related
— except in the one reachable ambiguous configuration in which both
flags are set and e lies in the weak hysteresis band (above the weak
threshold times 0.8 and at most the weak threshold), where the boolean
implementation keeps the halved gain while the tri-state machine
restores the full gain. -/
theorem bool_step_agrees_with_tristate
    (w s c : α) (fw fs : Bool) (e : α) (acc acc_q : Vector3 α)
    (h : ¬(fw = true ∧ fs = true ∧ w * 0.8 < e ∧ e ≤ w)) :
    (accDisturbance w s c fw fs e acc acc_q).1 =
      (triStep w s c (boolToTri fw fs) e acc acc_q).1 ∧
    (accDisturbance w s c fw fs e acc acc_q).2.1 =
      (triStep w s c (boolToTri fw fs) e acc acc_q).2.1 ∧
    boolToTri (accDisturbance w s c fw fs e acc acc_q).2.2.1
        (accDisturbance w s c fw fs e acc acc_q).2.2.2 =
      (triStep w s c (boolToTri fw fs) e acc acc_q).2.2 := by
  unfold accDisturbance triStep boolToTri
  rw [rearm_point, rearm_point]
  rcases fw <;> rcases fs <;>
    simp only [Bool.true_eq_false, Bool.false_eq_true, false_and, true_and,
      and_true, if_true, if_false, reduceIte] <;>
    split_ifs <;>
    simp_all

/-- Witness for C3 as amended: a step from the fresh state with e above the
strong threshold, outside the excluded ambiguous band. -/
theorem bool_step_agrees_with_tristate_witness :
    (¬(false = true ∧ false = true ∧ (1:ℚ) * 0.8 < 2 ∧ (2:ℚ) ≤ 1)) ∧
    ((accDisturbance (1:ℚ) 2 6 false false 2 ⟨1,2,3⟩ ⟨4,5,6⟩).1 =
      (triStep (1:ℚ) 2 6 (boolToTri false false) 2 ⟨1,2,3⟩ ⟨4,5,6⟩).1 ∧
    (accDisturbance (1:ℚ) 2 6 false false 2 ⟨1,2,3⟩ ⟨4,5,6⟩).2.1 =
      (triStep (1:ℚ) 2 6 (boolToTri false false) 2 ⟨1,2,3⟩ ⟨4,5,6⟩).2.1 ∧
    boolToTri (accDisturbance (1:ℚ) 2 6 false false 2 ⟨1,2,3⟩ ⟨4,5,6⟩).2.2.1
        (accDisturbance (1:ℚ) 2 6 false false 2 ⟨1,2,3⟩ ⟨4,5,6⟩).2.2.2 =
      (triStep (1:ℚ) 2 6 (boolToTri false false) 2 ⟨1,2,3⟩ ⟨4,5,6⟩).2.2) :=
  ⟨by simp,
   bool_step_agrees_with_tristate 1 2 6 false false 2 ⟨1,2,3⟩ ⟨4,5,6⟩ (by simp)⟩

/-- The squared quaternion norm is multiplicative for the Hamilton
product (Euler's four-square identity). -/
lemma norm_sq_mul (p q : Quaternion α) :
    norm_sq (mul p q) = norm_sq p * norm_sq q := by
  rcases p with ⟨ps, ⟨px, py, pz⟩⟩
  rcases q with ⟨qs, ⟨qx, qy, qz⟩⟩
  simp only [mul, norm_sq, norm_sq_vec, dot_vec, add_vec, scale_vec, cross_vec]
  ring

/-- The squared quaternion norm is nonnegative. -/
lemma norm_sq_nonneg (q : Quaternion α) : 0 ≤ norm_sq q := by
  rcases q with ⟨qs, ⟨qx, qy, qz⟩⟩
  simp only [norm_sq, norm_sq_vec]
  nlinarith [mul_self_nonneg qs, mul_self_nonneg qx, mul_self_nonneg qy,
    mul_self_nonneg qz]

/-- Normalizing a quaternion of positive squared norm yields a unit
quaternion. -/
lemma norm_normalize (q : Quaternion ℝ) (h : 0 < norm_sq q) :
    norm (normalize q) = 1 := by
  have hns : norm_sq (normalize q) = 1 := by
    rcases q with ⟨qs, ⟨qx, qy, qz⟩⟩
    simp only [normalize, norm, scale, scale_vec, norm_sq, norm_sq_vec] at h ⊢
    have hsq : Real.sqrt (qs * qs + (qx * qx + qy * qy + qz * qz)) ^ 2
        = qs * qs + (qx * qx + qy * qy + qz * qz) := Real.sq_sqrt h.le
    have hpos : 0 < Real.sqrt (qs * qs + (qx * qx + qy * qy + qz * qz)) :=
      Real.sqrt_pos.2 h
    field_simp
  rw [norm, hns, Real.sqrt_one]

/-- The integration step of predict is the Hamilton product of the current
estimate with the quaternion of scalar part one and vector part the
scaled angular rate. -/
lemma step_as_mul (q : Quaternion α) (omega : Vector3 α) (k : α) :
    scale_add k ⟨-(dot_vec q.vec omega),
        add_vec (scale_vec q.scalar omega) (cross_vec q.vec omega)⟩ q
      = mul q ⟨1, scale_vec k omega⟩ := by
  rcases q with ⟨qs, ⟨qx, qy, qz⟩⟩
  rcases omega with ⟨ox, oy, oz⟩
  simp only [scale_add, mul, dot_vec, add_vec, scale_vec, cross_vec,
    Vector3.mk.injEq, Quaternion.mk.injEq]
  refine ⟨by ring, by ring, by ring, by ring⟩

/-- One predict call keeps the orientation estimate at unit norm. -/
lemma predict_preserves_unit (f : AttitudeFilter ℝ) (g : Vector3 ℝ)
    (h : norm f.q = 1) : norm (predict f g).q = 1 := by
  have hsq : norm_sq f.q = 1 := by
    have h0 := norm_sq_nonneg f.q
    have h1 := Real.sq_sqrt h0
    rw [norm] at h
    nlinarith [h1, h]
  show norm (normalize _) = 1
  apply norm_normalize
  rw [step_as_mul, norm_sq_mul, hsq, one_mul]
  rcases hv : scale_vec (0.5 * DT) (add_vec g f.gyr_correct) with ⟨vx, vy, vz⟩
  simp only [norm_sq, norm_sq_vec]
  nlinarith [sq_nonneg vx, sq_nonneg vy, sq_nonneg vz]

/-- Any chain of predict calls from a unit orientation estimate keeps it
at unit norm. -/
lemma foldl_predict_unit (gyrs : List (Vector3 ℝ)) (f : AttitudeFilter ℝ)
    (h : norm f.q = 1) : norm ((gyrs.foldl predict f).q) = 1 := by
  induction gyrs generalizing f with
  | nil => exact h
  | cons g gs ih => exact ih (predict f g) (predict_preserves_unit f g h)

/-- C4: the initial orientation is the identity quaternion, and after any
sequence of predict calls from construction the orientation estimate has
norm one (exactly, in the real-number idealisation), enforced by the
renormalization after every integration step. -/
theorem estimate_unit_norm (a b w s : ℝ) (gyrs : List (Vector3 ℝ)) :
    (new a b w s).q = ⟨1, ⟨0, 0, 0⟩⟩ ∧
    norm ((gyrs.foldl predict (new a b w s)).q) = 1 := by
  refine ⟨rfl, foldl_predict_unit gyrs _ ?_⟩
  show Real.sqrt _ = 1
  norm_num [norm_sq, norm_sq_vec, new, Real.sqrt_one]

/-- C5: predict forms omega as the sum of the gyro input and the stored
correction, takes the first-order step whose scalar part adds minus dt
over two times the dot of the quaternion vector part with omega and
whose vector part adds dt over two times the sum of the scalar part
times omega and the cross of the vector part with omega, then
renormalizes; the result equals the normalization of q plus half dt
times the Hamilton product of q with the pure quaternion of omega. -/
theorem predict_first_order_step (f : AttitudeFilter ℝ) (gyr : Vector3 ℝ) :
    let omega := add_vec gyr f.gyr_correct
    let qi : Quaternion ℝ := ⟨f.q.scalar - DT / 2 * dot_vec f.q.vec omega,
      add_vec f.q.vec (scale_vec (DT / 2)
        (add_vec (scale_vec f.q.scalar omega) (cross_vec f.q.vec omega)))⟩
    (predict f gyr).q = normalize qi ∧
    qi = add f.q (scale (0.5 * DT) (mul f.q ⟨0, omega⟩)) := by
  refine ⟨?_, ?_⟩
  · show normalize _ = normalize _
    congr 1
    rcases f with ⟨⟨qs, ⟨qx, qy, qz⟩⟩, ⟨cx, cy, cz⟩, _, _, _, _, _, _, _⟩
    rcases gyr with ⟨gx, gy, gz⟩
    simp only [scale_add, mul, dot_vec, add_vec, scale_vec, cross_vec,
      Quaternion.mk.injEq, Vector3.mk.injEq]
    refine ⟨by ring, by ring, by ring, by ring⟩
  · rcases f with ⟨⟨qs, ⟨qx, qy, qz⟩⟩, ⟨cx, cy, cz⟩, _, _, _, _, _, _, _⟩
    rcases gyr with ⟨gx, gy, gz⟩
    simp only [add, scale, mul, dot_vec, add_vec, scale_vec, cross_vec,
      Quaternion.mk.injEq, Vector3.mk.injEq]
    refine ⟨by ring, by ring, by ring, by ring⟩

/-- C6: in every correct call, after the reference orientation is computed
from the classified accelerometer value and the magnetometer, the
correction is the gain times the quaternion-error cross term, negated
when the dot of the estimate with the reference orientation is negative;
the persistent integral gains dt times that pre-fold correction, and the
stored correction is that pre-fold value plus coef_integ times the
updated integral, in exactly this order. -/
theorem correct_updates_bias_then_folds (f : AttitudeFilter ℝ)
    (acc mag : Vector3 ℝ) :
    let acc_q := frame_rotation f.q ACC_R
    let e := norm_vec (sub_vec acc acc_q) / STANDARD_GRAVITY
    let r := accDisturbance f.thr_weak f.thr_strong f.coef_gyr_c
      f.flag_acc_weak f.flag_acc_strong e acc acc_q
    let q_gm := get_q_gm r.1 mag
    let term := add_vec (sub_vec (scale_vec f.q.scalar q_gm.vec)
      (scale_vec q_gm.scalar f.q.vec)) (cross_vec q_gm.vec f.q.vec)
    let gc := if dot f.q q_gm < 0 then negate_vec (scale_vec r.2.1 term)
      else scale_vec r.2.1 term
    (correct f acc mag).gyr_integ = add_vec (scale_vec DT gc) f.gyr_integ ∧
    (correct f acc mag).gyr_correct =
      add_vec (scale_vec f.coef_integ ((correct f acc mag).gyr_integ)) gc :=
  ⟨rfl, rfl⟩

/-- Counterexample to C7: a concrete correct call that leaves the
orientation estimate exactly unchanged, refuting that every correct call
updates q. -/
theorem correct_leaves_q_unchanged_example :
    (correct (new 1 0.2 0.04 0.08) ⟨1, 2, 3⟩ ⟨0, 1, 0⟩).q =
      (new (1:ℝ) 0.2 0.04 0.08).q := rfl

/-- C7 as amended: the orientation estimate is mutated by predict, while
correct never writes q; a correct call influences the estimate only
through the stored correction consumed by the next predict. -/
theorem correct_preserves_q (f : AttitudeFilter ℝ) (acc mag : Vector3 ℝ) :
    (correct f acc mag).q = f.q := rfl

/-- Counterexample to C8: constructing with alpha equal to minus one and
the thresholds inverted (weak 2, strong 1) is not rejected: the
constructor returns an ordinary filter, stores the invalid thresholds
unclamped and sets coef_gyr_c to two over alpha, here minus two. -/
theorem new_accepts_invalid_parameters :
    (new (-1 : ℝ) 1 2 1).coef_gyr_c = -2 ∧
    (new (-1 : ℝ) 1 2 1).thr_weak = 2 ∧
    (new (-1 : ℝ) 1 2 1).thr_strong = 1 ∧
    (new (-1 : ℝ) 1 2 1).q = ⟨1, ⟨0, 0, 0⟩⟩ := by
  refine ⟨?_, rfl, rfl, rfl⟩
  show (2 : ℝ) / (-1) = -2
  norm_num

/-- C8 as amended: the constructor is total and performs no validation
(there is no dt parameter; dt is the fixed global constant): for every
parameter values, valid or not, it returns the filter with identity
orientation, coef_gyr_c equal to two over alpha, coef_integ equal to
beta, the thresholds stored as given, zero vectors and both flags
clear. -/
theorem new_total_characterisation (alpha beta tw ts : α) :
    new alpha beta tw ts =
      { q := ⟨1, ⟨0, 0, 0⟩⟩, gyr_correct := ⟨0, 0, 0⟩,
        coef_gyr_c := 2 / alpha, coef_integ := beta, gyr_integ := ⟨0, 0, 0⟩,
        thr_weak := tw, thr_strong := ts, flag_acc_weak := false,
        flag_acc_strong := false } := rfl

/-- C10: predict modifies only the orientation estimate; all other fields
of the filter state are exactly unchanged. -/
theorem predict_touches_only_q (f : AttitudeFilter ℝ) (g : Vector3 ℝ) :
    (predict f g).gyr_correct = f.gyr_correct ∧
    (predict f g).gyr_integ = f.gyr_integ ∧
    (predict f g).coef_gyr_c = f.coef_gyr_c ∧
    (predict f g).coef_integ = f.coef_integ ∧
    (predict f g).thr_weak = f.thr_weak ∧
    (predict f g).thr_strong = f.thr_strong ∧
    (predict f g).flag_acc_weak = f.flag_acc_weak ∧
    (predict f g).flag_acc_strong = f.flag_acc_strong :=
  ⟨rfl, rfl, rfl, rfl, rfl, rfl, rfl, rfl⟩

end OmegaFF
